import Mathlib

/-!
Verification of the facility data-derivation layer of the
virtueconnect-insights dashboard.

The TypeScript source (the module defining `parseFacilities`,
`deriveMetrics`, `deriveActionPlan`, `deriveRecommendations`,
`deriveContextualRecommendations`, `deriveDesertZones`,
`detectRequiredCaps`, `detectClinicalIntent`) is embedded shallowly:

* JS objects `Record<string, Capability>` become association lists
  `List (String × Capability)`; a spread `{...a, ...b, ...c}` becomes the
  list `c ++ b ++ a` read through a first-match lookup, so that later
  spreads win exactly as in JS.
* JS numbers become `ℚ` (coordinates, the coverage ratio) or `ℕ`
  (counters and scores, which the source only ever produces as
  non-negative integers).
* `Array.prototype.sort` with comparator `(a, b) => b.key - a.key` is, by
  the ECMAScript stability guarantee, the unique stable descending sort
  by `key`; it is embedded as the structurally recursive stable insertion
  sort `sortDescBy`.
* JS `Map` (insertion-ordered, `set` keeps the original slot of an
  existing key) becomes an association list with `setEntry` / `lookupEntry`.
* `undefined | null` becomes `Option`.
-/

namespace VC

/-- Provenance for a capability assertion (source type `Evidence`). -/
structure Evidence where
  row_id : Option String
  source_column : Option String
  snippet : Option String
  evidence_type : Option String
deriving DecidableEq

/-- One binary clinical/infrastructure capability (source type `Capability`).
The JS field `value : boolean | null` is `Option Bool` (`none` = null). -/
structure Capability where
  value : Option Bool
  state : String
  confidence : Option ℚ
  evidence : List Evidence
deriving DecidableEq

/-- A detected data-quality issue tied to a facility (source type `Anomaly`).
All fields are optional in the source. -/
structure Anomaly where
  facility_id : Option String
  bundle_name : Option String
  anomaly_type : Option String
  severity : Option String
  reason : Option String
  required_missing : Option (List String)
  evidence_rows : List Evidence
deriving DecidableEq

/-- A capability group: a string-keyed mapping to `Capability`. -/
abbrev CapMap := List (String × Capability)

/-- The root facility entity (source type `Facility`).  The optional list
fields (`anomalies`, `raw_specialties`, `raw_procedures`) and the three
capability groups are embedded as plain lists: everywhere the source reads
them it first applies `?? {}` / `?? []`, so `none` and the empty collection
are indistinguishable. -/
structure Facility where
  facility_id : String
  name : String
  region : Option String
  district : Option String
  lat : Option ℚ
  lon : Option ℚ
  facility_type : Option String
  maternity : CapMap
  trauma : CapMap
  infrastructure : CapMap
  anomalies : List Anomaly
  raw_specialties : List String
  raw_procedures : List String
deriving DecidableEq

/-- A facility value with every field empty, used to build concrete
examples by record update. -/
def Facility.base : Facility :=
  ⟨"", "", none, none, none, none, none, [], [], [], [], [], []⟩

/-- First-match lookup in an association list (JS object / Map read). -/
def lookupEntry : List (String × α) → String → Option α
  | [], _ => none
  | (k, v) :: rest, key => if k = key then some v else lookupEntry rest key

/-- JS `Map.set`: overwrite in place if the key exists (keeping its slot),
else append at the end (insertion order). -/
def setEntry : List (String × α) → String → α → List (String × α)
  | [], key, v => [(key, v)]
  | (k, w) :: rest, key, v =>
    if k = key then (k, v) :: rest else (k, w) :: setEntry rest key v

/-- The JS test `m?.[cap]?.value === true` on a capability group. -/
def capTrue (m : CapMap) (key : String) : Bool :=
  match lookupEntry m key with
  | some c => c.value == some true
  | none => false

/-- Decides whether `pat` is a leading segment of `s`. -/
def leadsList : List Char → List Char → Bool
  | [], _ => true
  | _ :: _, [] => false
  | p :: ps, c :: cs => p == c && leadsList ps cs

/-- JS `String.prototype.includes`: substring containment on char lists. -/
def containsSub (pat : List Char) : List Char → Bool
  | [] => leadsList pat []
  | c :: cs => leadsList pat (c :: cs) || containsSub pat cs

/-- JS `toLowerCase` (ASCII-faithful), via the character list; the core
`String.toLower` is byte-position based and opaque to kernel reduction. -/
def sLower (s : String) : String := ⟨s.data.map Char.toLower⟩

/-- JS `toUpperCase` (ASCII-faithful), as `sLower`. -/
def sUpper (s : String) : String := ⟨s.data.map Char.toUpper⟩

/-- JS `trim`: strip whitespace from both ends. -/
def sTrim (s : String) : String :=
  ⟨(((s.data.dropWhile Char.isWhitespace).reverse).dropWhile Char.isWhitespace).reverse⟩

/-- The high-severity anomaly test used throughout the source:
`severity?.toUpperCase() === "HIGH" || (anomaly_type?.toUpperCase() ?? "").includes("HIGH")`. -/
def isHighAnomaly (a : Anomaly) : Bool :=
  (a.severity.map sUpper) == some "HIGH"
    || containsSub "HIGH".data (sUpper (a.anomaly_type.getD "")).data

/-- A facility has a high-severity anomaly (`(facility.anomalies ?? []).some (...)`). -/
def hasHighAnomaly (f : Facility) : Bool :=
  f.anomalies.any isHighAnomaly

/-- The source pattern `facility.region?.trim(); if (!region) return;`:
the trimmed region key, or `none` when the region is absent or trims to
the (falsy) empty string. -/
def regionKey (f : Facility) : Option String :=
  match f.region with
  | none => none
  | some r => if sTrim r = "" then none else some (sTrim r)

/-- Insert `x` into a list sorted descending by `key`, before the first
element whose key is `≤ key x` (so that, inside `sortDescBy`, earlier
input elements precede later ones on ties). -/
def insertDescBy (key : α → Nat) (x : α) : List α → List α
  | [] => [x]
  | y :: ys => if key x < key y then y :: insertDescBy key x ys else x :: y :: ys

/-- Stable descending sort by a natural-number key: the embedding of the
(ES2019-stable) JS `array.sort((a, b) => key(b) - key(a))`. -/
def sortDescBy (key : α → Nat) : List α → List α
  | [] => []
  | x :: xs => insertDescBy key x (sortDescBy key xs)

/-- The aggregate metrics record (source type `Metrics`). -/
structure Metrics where
  totalFacilities : Nat
  safeCSection : Nat
  highRiskAnomalies : Nat
  medicalDesertRegions : Nat
  cSectionCoverage : ℚ
deriving DecidableEq

/-- Embedding of the source function `deriveMetrics`.  The single
`forEach` filling the two region maps becomes one `foldl` over a pair of
association lists. -/
def deriveMetrics (facilities : List Facility) : Metrics :=
  let totalFacilities := facilities.length
  let safeCSection :=
    (facilities.filter (fun facility => capTrue facility.maternity "c_section")).length
  let highRiskAnomalies :=
    facilities.foldl
      (fun count facility => count + (facility.anomalies.filter isHighAnomaly).length) 0
  let regionMaps :=
    facilities.foldl
      (fun (maps : List (String × Nat) × List (String × Nat)) facility =>
        match regionKey facility with
        | none => maps
        | some region =>
          let totals := setEntry maps.1 region ((lookupEntry maps.1 region).getD 0 + 1)
          let safe :=
            if capTrue facility.maternity "c_section" then
              setEntry maps.2 region ((lookupEntry maps.2 region).getD 0 + 1)
            else maps.2
          (totals, safe))
      ([], [])
  let medicalDesertRegions :=
    (((regionMaps.1).map Prod.fst).filter
      (fun region => (lookupEntry regionMaps.2 region).getD 0 == 0)).length
  let cSectionCoverage : ℚ :=
    if totalFacilities = 0 then 0 else (safeCSection : ℚ) / (totalFacilities : ℚ)
  ⟨totalFacilities, safeCSection, highRiskAnomalies, medicalDesertRegions, cSectionCoverage⟩

/-- Triage label attached to a recommendation (source union type). -/
inductive TriageLevel
  | critical
  | stable
  | monitor
deriving DecidableEq

/-- One displayed capability entry `{ name, available }`. -/
structure CapDisplay where
  name : String
  available : Bool
deriving DecidableEq

/-- Ranked recommendation output (source type `FacilityRecommendation`). -/
structure FacilityRecommendation where
  name : String
  distance : String
  capabilities : List CapDisplay
  evidence : String
  triageLevel : TriageLevel
deriving DecidableEq

/-- The source constant `POSITIVE_STATES` (a two-element `Set<string>`). -/
def POSITIVE_STATES : List String := ["ASSERTED", "EXTRACTED"]

/-- The source constant `SAFE_OB_CAPS`. -/
def SAFE_OB_CAPS : List String :=
  ["c_section", "blood_bank", "anesthesia", "operating_room", "incubator"]

/-- The display label of a capability key:
`cap.replace(/_/g, " ").toUpperCase()`. -/
def capLabel (cap : String) : String :=
  sUpper ⟨cap.data.map (fun c => if c = '_' then ' ' else c)⟩

/-- The representative snippet of a capability:
`m?.[cap]?.evidence?.[0]?.snippet`. -/
def capSnippet (m : CapMap) (cap : String) : Option String :=
  ((lookupEntry m cap).bind (fun c => c.evidence.head?)).bind (fun e => e.snippet)

/-- JS truthiness of `m?.[cap]?.evidence?.[0]?.snippet` (an empty snippet
string is falsy). -/
def capSnippetTruthy (m : CapMap) (cap : String) : Bool :=
  match capSnippet m cap with
  | some s => !(s == "")
  | none => false

/-- The maternity score of `deriveRecommendations`: how many of the five
`SAFE_OB_CAPS` have `value === true` in the facility's `maternity` group. -/
def obScore (f : Facility) : Nat :=
  SAFE_OB_CAPS.foldl
    (fun acc cap => acc + (if capTrue f.maternity cap then 1 else 0)) 0

/-- One scored item of `deriveRecommendations`. -/
structure ScoredFacility where
  facility : Facility
  score : Nat
deriving DecidableEq

/-- The `ranked` list of `deriveRecommendations`: score each facility,
keep positive scores, sort stably by descending score, take `limit`. -/
def obRanked (facilities : List Facility) (limit : Nat) : List ScoredFacility :=
  ((sortDescBy (fun it => it.score)
    ((facilities.map (fun facility => ⟨facility, obScore facility⟩)).filter
      (fun it => 0 < it.score)))).take limit

/-- The per-entry rendering step of `deriveRecommendations`. -/
def renderRecommendation (index : Nat) (it : ScoredFacility) : FacilityRecommendation :=
  let maternity := it.facility.maternity
  let capabilities :=
    SAFE_OB_CAPS.map (fun cap => CapDisplay.mk (capLabel cap) (capTrue maternity cap))
  let evidenceSource := SAFE_OB_CAPS.find? (fun cap => capSnippetTruthy maternity cap)
  let evidence :=
    match evidenceSource with
    | some cap => capSnippet maternity cap
    | none => none
  let anomalySeverity := hasHighAnomaly it.facility
  let triageLevel : TriageLevel :=
    if anomalySeverity then .monitor else if 4 ≤ it.score then .stable else .critical
  { name := it.facility.name
    distance := "Region: " ++ it.facility.region.getD "Unknown" ++ " · Score "
      ++ toString it.score ++ "/" ++ toString SAFE_OB_CAPS.length
    capabilities := capabilities
    evidence := evidence.getD
      ("Derived from "
        ++ (if POSITIVE_STATES.contains
              (((lookupEntry maternity "delivery_natural").map Capability.state).getD "")
            then "clinical" else "structured")
        ++ " signals")
    triageLevel := if index == 0 then .critical else triageLevel }

/-- Embedding of the source function `deriveRecommendations`
(`limit` is explicit; the source default is 3). -/
def deriveRecommendations (facilities : List Facility) (limit : Nat) :
    List FacilityRecommendation :=
  (obRanked facilities limit).enum.map (fun p => renderRecommendation p.1 p.2)

/-- The eight clinical contexts (source union type `ClinicalContext`). -/
inductive ClinicalContext
  | general
  | obstetric
  | cardiac
  | blood
  | vitals
  | trauma
  | pediatric
  | surgical
deriving DecidableEq

/-- A context profile: the capability keys to score plus a display label. -/
structure ContextProfile where
  relevantCaps : List String
  label : String
deriving DecidableEq

/-- The source table `CONTEXT_PROFILES`. -/
def CONTEXT_PROFILES : ClinicalContext → ContextProfile
  | .general => ⟨["emergency_24_7", "lab_basic", "pharmacy", "ambulance"], "General"⟩
  | .obstetric =>
    ⟨["c_section", "delivery_natural", "blood_bank", "anesthesia", "operating_room",
      "incubator", "ultrasound_ob", "anesthetist"], "OB/GYN"⟩
  | .cardiac =>
    ⟨["emergency_24_7", "general_surgery", "operating_room", "anesthesia", "xray",
      "lab_basic", "ambulance"], "Cardiac"⟩
  | .blood => ⟨["blood_bank", "lab_basic", "emergency_24_7", "pharmacy"], "Blood / Transfusion"⟩
  | .vitals =>
    ⟨["emergency_24_7", "ambulance", "lab_basic", "pharmacy", "xray"], "Emergency Vitals"⟩
  | .trauma =>
    ⟨["trauma_surgery", "general_surgery", "emergency_24_7", "ambulance", "xray",
      "operating_room", "blood_bank", "anesthesia"], "Trauma"⟩
  | .pediatric =>
    ⟨["incubator", "lab_basic", "pharmacy", "emergency_24_7", "ultrasound_ob"], "Pediatric"⟩
  | .surgical =>
    ⟨["general_surgery", "operating_room", "anesthesia", "anesthetist", "blood_bank",
      "xray", "lab_basic"], "Surgical"⟩

/-- The merged capability map `{...maternity, ...trauma, ...infrastructure}`:
later spreads win, so under first-match lookup the infrastructure entries
come first. -/
def mergedCaps (f : Facility) : CapMap :=
  f.infrastructure ++ f.trauma ++ f.maternity

/-- The contextual score: how many profile capabilities are `true` in the
facility's merged capability map. -/
def ctxScore (context : ClinicalContext) (f : Facility) : Nat :=
  (CONTEXT_PROFILES context).relevantCaps.foldl
    (fun acc cap => acc + (if capTrue (mergedCaps f) cap then 1 else 0)) 0

/-- One scored item of `deriveContextualRecommendations`. -/
structure ContextScored where
  facility : Facility
  score : Nat
  allCaps : CapMap
  hasAllRequired : Bool
deriving DecidableEq

/-- The `scored` list of `deriveContextualRecommendations`. -/
def contextualScored (facilities : List Facility) (context : ClinicalContext)
    (requiredCaps : List String) : List ContextScored :=
  facilities.map (fun facility =>
    ⟨facility, ctxScore context facility, mergedCaps facility,
      requiredCaps.all (fun cap => capTrue (mergedCaps facility) cap)⟩)

/-- The `ranked` list of `deriveContextualRecommendations`: hard-filter on
required capabilities when any are given (else on positive score), sort
stably by descending score, take `limit`. -/
def contextualRanked (facilities : List Facility) (context : ClinicalContext)
    (limit : Nat) (requiredCaps : List String) : List ContextScored :=
  (sortDescBy (fun it => it.score)
    ((contextualScored facilities context requiredCaps).filter
      (fun item => if 0 < requiredCaps.length then item.hasAllRequired else 0 < item.score))).take
    limit

/-- JS `[...new Set(list)]`: deduplicate keeping first occurrences. -/
def uniqueFirstAux : List String → List String → List String
  | _, [] => []
  | seen, x :: xs =>
    if x ∈ seen then uniqueFirstAux seen xs else x :: uniqueFirstAux (x :: seen) xs

/-- Deduplication entry point for the display-capability list. -/
def uniqueFirst (l : List String) : List String := uniqueFirstAux [] l

/-- The triage threshold `Math.ceil(caps.length * 0.6)`.  For every
profile length occurring in `CONTEXT_PROFILES` (4, 5, 7, 8) the JS
binary-floating-point product rounds so that its ceiling equals the exact
rational ceiling, so the exact model is faithful. -/
def ctxThreshold (caps : List String) : ℤ :=
  Int.ceil ((caps.length : ℚ) * (6 / 10))

/-- The per-entry rendering step of `deriveContextualRecommendations`. -/
def renderContextual (context : ClinicalContext) (requiredCaps : List String)
    (index : Nat) (item : ContextScored) : FacilityRecommendation :=
  let profile := CONTEXT_PROFILES context
  let caps := profile.relevantCaps
  let displayCaps :=
    if 0 < requiredCaps.length then uniqueFirst (requiredCaps ++ caps) else caps
  let capabilities :=
    displayCaps.map (fun cap => CapDisplay.mk (capLabel cap) (capTrue item.allCaps cap))
  let evidenceSource := displayCaps.find? (fun cap => capSnippetTruthy item.allCaps cap)
  let evidence :=
    match evidenceSource with
    | some cap => if cap = "" then none else capSnippet item.allCaps cap
    | none => none
  let anomalySeverity := hasHighAnomaly item.facility
  let triageLevel : TriageLevel :=
    if anomalySeverity then .monitor
    else if ctxThreshold caps ≤ (item.score : ℤ) then .stable
    else .critical
  { name := item.facility.name
    distance := "Region: " ++ item.facility.region.getD "Unknown" ++ " · "
      ++ profile.label ++ " Score " ++ toString item.score ++ "/" ++ toString caps.length
    capabilities := capabilities
    evidence := evidence.getD ("Scored on " ++ profile.label ++ " capability profile")
    triageLevel := if index == 0 && !anomalySeverity then .stable else triageLevel }

/-- Embedding of the source function `deriveContextualRecommendations`
(`limit` and `requiredCaps` explicit; source defaults are 3 and `[]`). -/
def deriveContextualRecommendations (facilities : List Facility)
    (context : ClinicalContext) (limit : Nat) (requiredCaps : List String) :
    List FacilityRecommendation :=
  (contextualRanked facilities context limit requiredCaps).enum.map
    (fun p => renderContextual context requiredCaps p.1 p.2)

/-- The remediation plan record (source type `ActionPlan`); the
`severityLabel` union `"High" | "Medium" | "Low"` stays a string. -/
structure ActionPlan where
  region : String
  gap : String
  impact : String
  candidate : String
  intervention : String
  severityLabel : String
deriving DecidableEq

/-- The fixed all-clear plan returned when no region has anomalies. -/
def noAnomaliesPlan : ActionPlan :=
  ⟨"No anomalies detected", "All bundles satisfied", "0 facilities affected",
    "N/A", "Maintain current standards", "Low"⟩

/-- The per-facility grouping step of `deriveActionPlan`: skip facilities
with a falsy region or no anomalies, else append the anomalies to the
region's entry. -/
def anomalyStep (m : List (String × List Anomaly)) (facility : Facility) :
    List (String × List Anomaly) :=
  match regionKey facility with
  | none => m
  | some region =>
    if facility.anomalies.isEmpty then m
    else setEntry m region (((lookupEntry m region).getD []) ++ facility.anomalies)

/-- The grouping map of `deriveActionPlan`: anomalies accumulated per
trimmed region key in a JS `Map` (insertion-ordered association list). -/
def regionToAnomalies (facilities : List Facility) : List (String × List Anomaly) :=
  facilities.foldl anomalyStep []

/-- Default used to model the (provably unreachable) unguarded JS index
`topAnomalies[0]` on an empty list; every list stored in
`regionToAnomalies` is a concatenation ending in a non-empty list. -/
def defaultAnomaly : Anomaly := ⟨none, none, none, none, none, none, []⟩

/-- The non-sentinel branch of `deriveActionPlan`, for the selected top
region and its accumulated anomalies. -/
def buildActionPlan (facilities : List Facility) (topRegion : String)
    (topAnomalies : List Anomaly) : ActionPlan :=
  let topAnomaly := topAnomalies.headD defaultAnomaly
  let gap :=
    (topAnomaly.reason <|> (topAnomaly.required_missing.bind List.head?)).getD
      "Capability gap detected"
  let severity := topAnomaly.severity.map sUpper
  let severityLabel :=
    if severity == some "HIGH" then "High"
    else if severity == some "LOW" then "Low"
    else "Medium"
  let candidate :=
    ((facilities.find? (fun facility => facility.region == some topRegion)).map
      Facility.name).getD "Regional facility"
  let intervention :=
    if containsSub "ultrasound".data (sLower gap).data then "Deploy mobile ultrasound unit"
    else if containsSub "blood".data (sLower gap).data then "Secure blood bank partnership"
    else if containsSub "anesthesia".data (sLower gap).data then "Assign anesthesia coverage"
    else "Targeted capability upgrade"
  ⟨topRegion, gap, toString topAnomalies.length ++ " anomalies detected",
    candidate, intervention, severityLabel⟩

/-- Embedding of the source function `deriveActionPlan`. -/
def deriveActionPlan (facilities : List Facility) : ActionPlan :=
  match sortDescBy (fun q => q.2.length) (regionToAnomalies facilities) with
  | [] => noAnomaliesPlan
  | (topRegion, topAnomalies) :: _ => buildActionPlan facilities topRegion topAnomalies

/-- Per-region accumulator of `deriveDesertZones`. -/
structure RegionStats where
  lats : List ℚ
  lngs : List ℚ
  csection : Nat
  blood : Nat
  emergency : Nat
  total : Nat
deriving DecidableEq

/-- A desert-zone overlay (source type `DesertZoneData`); the severity
union `"critical" | "high" | "moderate"` stays a string. -/
structure DesertZoneData where
  lat : ℚ
  lng : ℚ
  radius : ℚ
  severity : String
  region : String
  gaps : List String
deriving DecidableEq

/-- The grouping pass of `deriveDesertZones`. -/
def desertRegionMap (facilities : List Facility) : List (String × RegionStats) :=
  facilities.foldl
    (fun m f =>
      match regionKey f with
      | none => m
      | some region =>
        let entry := (lookupEntry m region).getD ⟨[], [], 0, 0, 0, 0⟩
        let entry := { entry with total := entry.total + 1 }
        let entry :=
          match f.lat, f.lon with
          | some la, some lo =>
            { entry with lats := entry.lats ++ [la], lngs := entry.lngs ++ [lo] }
          | _, _ => entry
        let entry :=
          if capTrue f.maternity "c_section" then { entry with csection := entry.csection + 1 }
          else entry
        let entry :=
          if capTrue f.maternity "blood_bank" then { entry with blood := entry.blood + 1 }
          else entry
        let entry :=
          if capTrue f.trauma "emergency_24_7" then { entry with emergency := entry.emergency + 1 }
          else entry
        setEntry m region entry)
    []

/-- Maximum of a coordinate list (`Math.max(...list)`); the source only
applies it to non-empty lists, so the empty case (JS `-Infinity`) is
given an irrelevant default. -/
def listMax : List ℚ → ℚ
  | [] => 0
  | x :: xs => xs.foldl max x

/-- Minimum of a coordinate list (`Math.min(...list)`), as `listMax`. -/
def listMin : List ℚ → ℚ
  | [] => 0
  | x :: xs => xs.foldl min x

/-- The gaps list of one region, pushed in source order. -/
def regionGaps (stats : RegionStats) : List String :=
  (if stats.csection = 0 then ["No C-Section"] else [])
    ++ (if stats.blood = 0 then ["No Blood Bank"] else [])
    ++ (if stats.emergency = 0 then ["No 24/7 Emergency"] else [])

/-- The per-region emission step of `deriveDesertZones`: skip regions with
no gaps or no mappable coordinates, else compute centroid, radius and
severity. -/
def zoneOfRegion (region : String) (stats : RegionStats) : Option DesertZoneData :=
  let gaps := regionGaps stats
  if gaps.isEmpty || stats.lats.isEmpty then none
  else
    let lat := (stats.lats.foldl (· + ·) 0) / (stats.lats.length : ℚ)
    let lng := (stats.lngs.foldl (· + ·) 0) / (stats.lngs.length : ℚ)
    let latSpread := listMax stats.lats - listMin stats.lats
    let lngSpread := listMax stats.lngs - listMin stats.lngs
    let spread := max latSpread lngSpread
    let radius := max 15000 (min 80000 (spread * 111000 * (6 / 10)))
    let severity :=
      if 3 ≤ gaps.length then "critical" else if 2 ≤ gaps.length then "high" else "moderate"
    some ⟨lat, lng, radius, severity, region, gaps⟩

/-- Embedding of the source function `deriveDesertZones`: the `forEach`
push over the map's entries is a `filterMap` in insertion order. -/
def deriveDesertZones (facilities : List Facility) : List DesertZoneData :=
  (desertRegionMap facilities).filterMap (fun p => zoneOfRegion p.1 p.2)

/-- Abstract syntax of the regular-expression dialect used by the source's
keyword tables: literal characters, small character classes, `\s`, the
zero-width word boundary `\b`, concatenation, alternation, `?` and `*`. -/
inductive RE
  | eps
  | chr (c : Char)
  | cls (cs : List Char)
  | ws
  | wb
  | cat (a b : RE)
  | alt (a b : RE)
  | opt (a : RE)
  | star (a : RE)
deriving DecidableEq

/-- JS `\w`: ASCII letters, digits and underscore. -/
def isWordChar (c : Char) : Bool := c.isAlphanum || c == '_'

/-- JS `\b`: a word/non-word transition between the previous character
(`none` at the string edge) and the next one. -/
def wordBoundary (prev : Option Char) (s : List Char) : Bool :=
  let pw := match prev with | some c => isWordChar c | none => false
  let nw := match s with | c :: _ => isWordChar c | [] => false
  pw != nw

/-- Structural size of a regex, used to bound the matcher's fuel. -/
def reSize : RE → Nat
  | .eps => 1
  | .chr _ => 1
  | .cls _ => 1
  | .ws => 1
  | .wb => 1
  | .cat a b => reSize a + reSize b + 1
  | .alt a b => reSize a + reSize b + 1
  | .opt a => reSize a + 1
  | .star a => reSize a + 1

/-- Backtracking matcher: all ways a regex can consume a leading segment
of `s`, each result giving the last consumed character (for later `\b`
tests) and the rest of the input.  A `star` iteration recurses only after
consuming at least one character, and `fuel` bounds the recursion depth;
`reFuel` below always suffices, since every step either descends into a
strict subterm or consumes input. -/
def Mtch : Nat → RE → Option Char → List Char → List (Option Char × List Char)
  | 0, _, _, _ => []
  | fuel + 1, re, prev, s =>
    match re with
    | .eps => [(prev, s)]
    | .chr c =>
      match s with
      | [] => []
      | x :: xs => if x == c then [(some x, xs)] else []
    | .cls cs =>
      match s with
      | [] => []
      | x :: xs => if cs.contains x then [(some x, xs)] else []
    | .ws =>
      match s with
      | [] => []
      | x :: xs => if x.isWhitespace then [(some x, xs)] else []
    | .wb => if wordBoundary prev s then [(prev, s)] else []
    | .cat a b => (Mtch fuel a prev s).flatMap (fun pr => Mtch fuel b pr.1 pr.2)
    | .alt a b => Mtch fuel a prev s ++ Mtch fuel b prev s
    | .opt a => (prev, s) :: Mtch fuel a prev s
    | .star a =>
      (prev, s) :: (Mtch fuel a prev s).flatMap
        (fun pr => if pr.2.length < s.length then Mtch fuel (.star a) pr.1 pr.2 else [])

/-- Fuel that always suffices for `Mtch` on the given input. -/
def reFuel (re : RE) (s : List Char) : Nat := (reSize re + 1) * (s.length + 2)

/-- Unanchored search: try to match at every start position, tracking the
preceding character for word boundaries. -/
def searchFrom (re : RE) (fuel : Nat) : Option Char → List Char → Bool
  | prev, [] => !(Mtch fuel re prev []).isEmpty
  | prev, c :: cs => !(Mtch fuel re prev (c :: cs)).isEmpty || searchFrom re fuel (some c) cs

/-- JS `regex.test(s)`: does the regex match anywhere in the string? -/
def reTest (re : RE) (s : String) : Bool :=
  searchFrom re (reFuel re s.data) none s.data

/-- A string literal as a regex. -/
def lit (s : String) : RE := (s.data.map RE.chr).foldr RE.cat RE.eps

/-- Concatenation of a list of regexes. -/
def seqs (l : List RE) : RE := l.foldr RE.cat RE.eps

/-- Alternation of a non-empty list of regexes. -/
def alts : List RE → RE
  | [] => RE.eps
  | [r] => r
  | r :: rs => RE.alt r (alts rs)

/-- The fragment `[- ]?`. -/
def dashSp : RE := .opt (.cls ['-', ' '])

/-- The pattern `\bw\b` for a literal word `w`. -/
def word (w : String) : RE := seqs [.wb, lit w, .wb]

/-- The source table `KEYWORD_TO_CAP`, in order; each JS regex literal is
transcribed node by node. -/
def KEYWORD_TO_CAP : List (RE × String) :=
  [ (seqs [.wb, lit "operating", .star .ws, lit "room", .wb], "operating_room"),
    (seqs [.wb, lit "c", dashSp, lit "section", .wb], "c_section"),
    (word "cesarean", "c_section"),
    (seqs [.wb, lit "blood", .star .ws,
      alts [lit "bank", lit "type", lit "transfus",
        seqs [lit "cross", dashSp, lit "match"], lit "loss", lit "supply"], .wb],
      "blood_bank"),
    (word "transfusion", "blood_bank"),
    (seqs [.wb, lit "cross", dashSp, lit "match", .wb], "blood_bank"),
    (word "hemorrhag", "blood_bank"),
    (word "haemorrhag", "blood_bank"),
    (word "incubator", "incubator"),
    (word "nicu", "incubator"),
    (word "neonatal", "incubator"),
    (seqs [.wb, lit "anesthesi", alts [lit "a", lit "st"], .wb], "anesthesia"),
    (word "anesthetist", "anesthetist"),
    (word "ultrasound", "ultrasound_ob"),
    (seqs [.wb, lit "x", dashSp, lit "ray", .wb], "xray"),
    (word "radiolog", "xray"),
    (word "ambulance", "ambulance"),
    (word "emergency", "emergency_24_7"),
    (seqs [.wb, lit "24", .opt (.chr '/'), lit "7", .wb], "emergency_24_7"),
    (seqs [.wb, lit "lab", .opt (lit "oratory"), .wb], "lab_basic"),
    (word "pharmacy", "pharmacy"),
    (seqs [.wb, lit "general", .star .ws, lit "surg", .opt (lit "ery"), .wb], "general_surgery"),
    (seqs [.wb, lit "trauma", .star .ws, lit "surg", .opt (lit "ery"), .wb], "trauma_surgery"),
    (seqs [.wb, lit "deliver", .opt (alts [lit "y", lit "ies"]), .wb], "delivery_natural"),
    (word "maternal", "delivery_natural") ]

/-- Embedding of the source function `detectRequiredCaps`: lower-case the
text, collect (as a JS `Set`, i.e. first-insertion order without
duplicates) the capability keys of every matching rule. -/
def detectRequiredCaps (text : String) : List String :=
  let lower := sLower text
  KEYWORD_TO_CAP.foldl
    (fun found p =>
      if reTest p.1 lower && !(found.contains p.2) then found ++ [p.2] else found)
    []

/-- The detected intent (source type `DetectedIntent`). -/
structure DetectedIntent where
  context : ClinicalContext
  requiredCaps : List String
deriving DecidableEq

/-- The ordered context patterns of `detectClinicalIntent`, transcribed
node by node from the source regex literals. -/
def CONTEXT_PATTERNS : List (RE × ClinicalContext) :=
  [ (seqs [.wb, alts
      [seqs [lit "c", dashSp, lit "section"], lit "obstetric", lit "preeclampsia",
        lit "eclampsia", lit "ob/gyn", lit "obgyn", lit "maternal", lit "delivery",
        lit "labor", lit "gestation", lit "nicu", lit "prenatal", lit "postnatal",
        lit "pregnancy", lit "pregnant"], .wb], .obstetric),
    (seqs [.wb, alts
      [lit "cardiac", lit "heart", lit "cardio", lit "chest pain", lit "myocard",
        lit "arrhythmia", lit "coronary", lit "aortic"], .wb], .cardiac),
    (seqs [.wb, alts
      [seqs [lit "blood", .opt .ws,
        alts [lit "type", lit "bank", lit "transfus",
          seqs [lit "cross", dashSp, lit "match"], lit "loss"]],
        lit "hemorrhag", lit "bleeding", lit "anemia", lit "haemorrhag"], .wb], .blood),
    (seqs [.wb, alts
      [seqs [lit "vital", .opt .ws, lit "sign", .opt (lit "s")], lit "unstable",
        lit "bp", lit "blood pressure", lit "hypotens", lit "hypertens",
        lit "tachycard", lit "bradycard", lit "fever", lit "temperature",
        lit "spo2", lit "oxygen"], .wb], .vitals),
    (seqs [.wb, alts
      [lit "trauma", lit "accident", lit "fracture", lit "broken", lit "injury",
        lit "wound", lit "burn", lit "crash", lit "fall", lit "assault"], .wb], .trauma),
    (seqs [.wb, alts
      [lit "pediatric", lit "child", lit "infant", lit "neonate", lit "newborn",
        lit "baby", lit "toddler"], .wb], .pediatric),
    (seqs [.wb, alts
      [seqs [lit "surg", alts [lit "ery", lit "ical"]],
        seqs [lit "operat", alts [lit "ion", lit "ing"]], lit "appendect",
        lit "cholecyst", lit "hernia", lit "laparoscop", lit "amputation"], .wb],
      .surgical) ]

/-- Embedding of the source function `detectClinicalIntent`: required caps
from `detectRequiredCaps`, context from the first matching pattern, else
`general`. -/
def detectClinicalIntent (text : String) : DetectedIntent :=
  let lower := sLower text
  let requiredCaps := detectRequiredCaps text
  match CONTEXT_PATTERNS.find? (fun p => reTest p.1 lower) with
  | some p => ⟨p.2, requiredCaps⟩
  | none => ⟨.general, requiredCaps⟩

/-- Embedding of the backwards-compat wrapper `detectClinicalContext`. -/
def detectClinicalContext (text : String) : ClinicalContext :=
  (detectClinicalIntent text).context

/-! Concrete example inputs used by the witnesses and counterexamples. -/

/-- A capability asserted `true`. -/
def fullCap : Capability := ⟨some true, "ASSERTED", none, []⟩

/-- An anomaly of severity HIGH. -/
def highAnomaly : Anomaly := ⟨none, none, none, some "HIGH", none, none, []⟩

/-- A facility with all five `SAFE_OB_CAPS` true in `maternity` and no
anomalies. -/
def c3Facility : Facility :=
  { Facility.base with
    name := "Hope Hospital"
    maternity := SAFE_OB_CAPS.map (fun cap => (cap, fullCap)) }

/-- A facility whose five safe-OB capabilities are true only under the
`trauma` and `infrastructure` groups, with an empty `maternity` mapping. -/
def c10Trauma : Facility :=
  { Facility.base with
    name := "Trauma Only"
    trauma := [("c_section", fullCap), ("blood_bank", fullCap), ("anesthesia", fullCap)]
    infrastructure := [("operating_room", fullCap), ("incubator", fullCap)] }

/-- A facility with one true maternity capability. -/
def c10Ob : Facility :=
  { Facility.base with name := "OB Hospital", maternity := [("c_section", fullCap)] }

/-- A facility with a true `emergency_24_7` infrastructure capability and
a high-severity anomaly. -/
def c1Fac : Facility :=
  { Facility.base with
    name := "Emergency Hospital"
    infrastructure := [("emergency_24_7", fullCap)]
    anomalies := [highAnomaly] }

/-- The single recommendation `deriveContextualRecommendations` produces
for `[c1Fac]` in the general context with `emergency_24_7` required. -/
def rC1 : FacilityRecommendation :=
  renderContextual ClinicalContext.general ["emergency_24_7"] 0
    ⟨c1Fac, 1, mergedCaps c1Fac, true⟩

/-- Another facility with one relevant capability and a high anomaly. -/
def c4Fac : Facility :=
  { Facility.base with
    name := "Monitor Hospital"
    infrastructure := [("emergency_24_7", fullCap)]
    anomalies := [highAnomaly] }

/-- A facility with a clean region name and one anomaly. -/
def c5Fac : Facility :=
  { Facility.base with
    name := "Region One Clinic"
    region := some "North"
    anomalies := [highAnomaly] }

/-- A facility whose region needs trimming: its raw region string differs
from the trimmed map key. -/
def c6Fac : Facility :=
  { Facility.base with
    name := "Hospital A"
    region := some " North "
    anomalies := [highAnomaly] }

/-- A facility whose raw region string equals its trimmed key. -/
def c6W : Facility :=
  { Facility.base with
    name := "Hospital B"
    region := some "South"
    anomalies := [highAnomaly] }

/-- A mappable facility with no capabilities at all: its region has all
three gaps. -/
def c7Fac : Facility :=
  { Facility.base with
    name := "Bare Facility"
    region := some "West"
    lat := some 0
    lon := some 0 }

/-- The desert zone emitted for `[c7Fac]`. -/
def c7Zone : DesertZoneData :=
  ⟨0, 0, 15000, "critical", "West",
    ["No C-Section", "No Blood Bank", "No 24/7 Emergency"]⟩

/-! General lemmas about the embedding's list machinery. -/

theorem mem_insertDescBy {key : α → Nat} {x y : α} {l : List α} :
    y ∈ insertDescBy key x l ↔ y = x ∨ y ∈ l := by
  induction l with
  | nil => simp [insertDescBy]
  | cons z zs ih =>
    simp only [insertDescBy]
    split
    · simp only [List.mem_cons, ih]
      tauto
    · simp only [List.mem_cons]

theorem mem_sortDescBy {key : α → Nat} {y : α} {l : List α} :
    y ∈ sortDescBy key l ↔ y ∈ l := by
  induction l with
  | nil => simp [sortDescBy]
  | cons x xs ih => simp [sortDescBy, mem_insertDescBy, ih]

theorem insertDescBy_ne_nil {key : α → Nat} {x : α} {l : List α} :
    insertDescBy key x l ≠ [] := by
  cases l with
  | nil => simp [insertDescBy]
  | cons y ys =>
    simp only [insertDescBy]
    split <;> simp

theorem sortDescBy_eq_nil_iff {key : α → Nat} {l : List α} :
    sortDescBy key l = [] ↔ l = [] := by
  cases l with
  | nil => simp [sortDescBy]
  | cons x xs => simp [sortDescBy, insertDescBy_ne_nil]

theorem pairwise_insertDescBy {key : α → Nat} {x : α} {l : List α}
    (h : l.Pairwise (fun a b => key b ≤ key a)) :
    (insertDescBy key x l).Pairwise (fun a b => key b ≤ key a) := by
  induction l with
  | nil => simp [insertDescBy]
  | cons z zs ih =>
    rcases List.pairwise_cons.mp h with ⟨hz, hzs⟩
    simp only [insertDescBy]
    split
    · rename_i hlt
      refine List.pairwise_cons.mpr ⟨?_, ih hzs⟩
      intro y hy
      rcases mem_insertDescBy.mp hy with rfl | hy
      · exact Nat.le_of_lt hlt
      · exact hz y hy
    · rename_i hnlt
      refine List.pairwise_cons.mpr ⟨?_, h⟩
      intro y hy
      rcases List.mem_cons.mp hy with rfl | hy
      · exact Nat.le_of_not_lt hnlt
      · exact Nat.le_trans (hz y hy) (Nat.le_of_not_lt hnlt)

theorem pairwise_sortDescBy {key : α → Nat} {l : List α} :
    (sortDescBy key l).Pairwise (fun a b => key b ≤ key a) := by
  induction l with
  | nil => simp [sortDescBy]
  | cons x xs ih => exact pairwise_insertDescBy ih

theorem sortDescBy_head_max {key : α → Nat} {l : List α} {h : α} {t : List α}
    (e : sortDescBy key l = h :: t) : ∀ x ∈ l, key x ≤ key h := by
  intro x hx
  have hx2 : x ∈ h :: t := by rw [← e]; exact mem_sortDescBy.mpr hx
  rcases List.mem_cons.mp hx2 with rfl | hx3
  · exact Nat.le_refl _
  · have hp : (h :: t).Pairwise (fun a b => key b ≤ key a) := by
      rw [← e]; exact pairwise_sortDescBy
    exact (List.pairwise_cons.mp hp).1 x hx3

theorem mem_enum_snd {l : List α} {p : Nat × α} (hp : p ∈ l.enum) : p.2 ∈ l := by
  rcases List.mem_iff_get?.mp hp with ⟨n, hn⟩
  rw [List.get?_enum] at hn
  cases e : l.get? n with
  | none => rw [e] at hn; exact absurd hn (by simp)
  | some a =>
    rw [e] at hn
    have hpa : (n, a) = p := by simpa using hn
    rw [← hpa]
    exact List.get?_mem e

/-! Claim theorems. -/

/-- C2, counterexample: on a one-facility list with no c-section
capability, `cSectionCoverage` is `0` while `totalFacilities` is `1`, so
coverage being zero is not equivalent to the list being empty. -/
theorem c2_counterexample :
    ¬(((deriveMetrics [Facility.base]).cSectionCoverage = 0) ↔
      ((deriveMetrics [Facility.base]).totalFacilities = 0)) := by
  have h1 : (deriveMetrics [Facility.base]).totalFacilities = 1 := by decide
  have h2 : (deriveMetrics [Facility.base]).cSectionCoverage = 0 := by
    simp [deriveMetrics, Facility.base, capTrue, lookupEntry]
  intro hiff
  exact absurd (h1 ▸ hiff.mp h2) (by decide)

/-- C2 (amended): for every facility list, `cSectionCoverage` lies in the
closed interval [0, 1], and it equals 0 if and only if the list is empty
or no facility has a true maternity c_section (`safeCSection = 0`). -/
theorem c2_coverage_bounds (facilities : List Facility) :
    0 ≤ (deriveMetrics facilities).cSectionCoverage ∧
    (deriveMetrics facilities).cSectionCoverage ≤ 1 ∧
    ((deriveMetrics facilities).cSectionCoverage = 0 ↔
      ((deriveMetrics facilities).totalFacilities = 0 ∨
        (deriveMetrics facilities).safeCSection = 0)) := by
  have hle : ((facilities.filter
        (fun facility => capTrue facility.maternity "c_section")).length : ℚ)
      ≤ (facilities.length : ℚ) := by
    exact_mod_cast List.length_filter_le _ _
  simp only [deriveMetrics]
  by_cases h : facilities.length = 0
  · simp [h]
  · have hpos : (0:ℚ) < (facilities.length : ℚ) := by
      exact_mod_cast Nat.pos_of_ne_zero h
    simp only [if_neg h]
    refine ⟨by positivity, ?_, ?_⟩
    · rw [div_le_one hpos]
      exact hle
    · rw [div_eq_zero_iff]
      constructor
      · rintro (hs | hn)
        · exact Or.inr (by exact_mod_cast hs)
        · exact absurd hn (ne_of_gt hpos)
      · rintro (hn | hs)
        · exact absurd hn h
        · exact Or.inl (by exact_mod_cast hs)

/-- C3: whenever `deriveRecommendations` returns a non-empty list, its
first entry has triage level critical (the forced top-rank override); and
on the single full-capability facility `c3Facility` it returns exactly one
recommendation, with maternity score 5 and triage level critical. -/
theorem c3_top_forced_critical :
    (∀ facilities limit r rest,
      deriveRecommendations facilities limit = r :: rest →
      r.triageLevel = TriageLevel.critical) ∧
    (deriveRecommendations [c3Facility] 3).length = 1 ∧
    obScore c3Facility = 5 ∧
    (∀ r ∈ deriveRecommendations [c3Facility] 3, r.triageLevel = TriageLevel.critical) := by
  refine ⟨?_, by decide, by decide, by decide⟩
  intro facilities limit r rest h
  have h0 : (deriveRecommendations facilities limit).get? 0 = some r := by
    rw [h]; rfl
  unfold deriveRecommendations at h0
  rw [List.get?_map, List.get?_enum] at h0
  cases e : (obRanked facilities limit).get? 0 with
  | none => rw [e] at h0; exact absurd h0 (by simp)
  | some it =>
    rw [e] at h0
    simp only [Option.map_some'] at h0
    have hr : renderRecommendation 0 it = r := by simpa using h0
    rw [← hr]
    simp [renderRecommendation]

/-- C3 witness: the forced-critical property applied to the concrete
single-facility scenario. -/
theorem c3_witness :
    (renderRecommendation 0 ⟨c3Facility, 5⟩).triageLevel = TriageLevel.critical :=
  c3_top_forced_critical.1 [c3Facility] 3 (renderRecommendation 0 ⟨c3Facility, 5⟩) []
    (by decide)

/-- C8: the required capabilities detected in the sample sentence are
exactly c_section, emergency_24_7 and blood_bank. -/
theorem c8_keyword_extraction (cap : String) :
    cap ∈ detectRequiredCaps "patient needs emergency c-section and blood transfusion" ↔
      cap ∈ ["c_section", "emergency_24_7", "blood_bank"] := by
  have h : detectRequiredCaps "patient needs emergency c-section and blood transfusion"
      = ["c_section", "blood_bank", "emergency_24_7"] := by decide
  rw [h]
  simp only [List.mem_cons, List.not_mem_nil, or_false]
  tauto

/-- C9: the three sample texts resolve to the obstetric, trauma and
general contexts respectively, the last with no required capabilities. -/
theorem c9_context_detection :
    (detectClinicalIntent "severe preeclampsia, 34 weeks gestation").context
        = ClinicalContext.obstetric ∧
    (detectClinicalIntent "patient presenting with fractured femur after fall").context
        = ClinicalContext.trauma ∧
    detectClinicalIntent "good morning" = ⟨ClinicalContext.general, []⟩ :=
  ⟨by decide, by decide, by decide⟩

/-- C10: the score of `deriveRecommendations` depends only on the
maternity group (it is invariant under replacing trauma and
infrastructure); every returned entry stems from a facility with positive
maternity score; and the facility with the five safe-OB capabilities only
in trauma/infrastructure scores 0 and never appears. -/
theorem c10_maternity_only_scoring :
    (∀ f t i, obScore { f with trauma := t, infrastructure := i } = obScore f) ∧
    (∀ facilities limit r, r ∈ deriveRecommendations facilities limit →
      ∃ f, f ∈ facilities ∧ 0 < obScore f ∧ r.name = f.name) ∧
    obScore c10Trauma = 0 ∧
    (∀ limit, deriveRecommendations [c10Trauma] limit = []) := by
  refine ⟨fun f t i => rfl, ?_, by decide, ?_⟩
  · intro facilities limit r hr
    rcases List.mem_map.mp hr with ⟨p, hp, rfl⟩
    have hmem : p.2 ∈ obRanked facilities limit := mem_enum_snd hp
    unfold obRanked at hmem
    have hmem2 := List.take_subset _ _ hmem
    have hmem3 := mem_sortDescBy.mp hmem2
    rcases List.mem_filter.mp hmem3 with ⟨hmem4, hpos⟩
    rcases List.mem_map.mp hmem4 with ⟨f, hf, hfe⟩
    refine ⟨f, hf, ?_, ?_⟩
    · have hs : p.2.score = obScore f := by rw [← hfe]
      have := of_decide_eq_true hpos
      rw [hs] at this
      exact this
    · rw [← hfe]
      simp [renderRecommendation]
  · intro limit
    have h0 : obRanked [c10Trauma] limit = [] := by
      simp [obRanked, sortDescBy, (by decide : obScore c10Trauma = 0)]
    simp [deriveRecommendations, h0]

/-- C10 witness: the membership part applied to a one-facility list with
a positive maternity score. -/
theorem c10_witness :
    ∃ f, f ∈ [c10Ob] ∧ 0 < obScore f ∧
      (renderRecommendation 0 ⟨c10Ob, 1⟩).name = f.name :=
  c10_maternity_only_scoring.2.1 [c10Ob] 3 (renderRecommendation 0 ⟨c10Ob, 1⟩) (by decide)

/-- C1: every entry returned by `deriveContextualRecommendations` stems
from an input facility; when `requiredCaps` is non-empty that facility has
every required capability true in its merged capability map (hard filter,
regardless of score), and when `requiredCaps` is empty the facility's
contextual score is strictly positive. -/
theorem c1_required_cap_hard_filter (facilities : List Facility)
    (context : ClinicalContext) (limit : Nat) (requiredCaps : List String)
    (r : FacilityRecommendation)
    (hr : r ∈ deriveContextualRecommendations facilities context limit requiredCaps) :
    ∃ f, f ∈ facilities ∧ r.name = f.name ∧
      (requiredCaps ≠ [] → ∀ cap ∈ requiredCaps, capTrue (mergedCaps f) cap = true) ∧
      (requiredCaps = [] → 0 < ctxScore context f) := by
  unfold deriveContextualRecommendations at hr
  rcases List.mem_map.mp hr with ⟨p, hp, rfl⟩
  have hmem : p.2 ∈ contextualRanked facilities context limit requiredCaps :=
    mem_enum_snd hp
  unfold contextualRanked at hmem
  have hmem2 := List.take_subset _ _ hmem
  have hmem3 := mem_sortDescBy.mp hmem2
  rcases List.mem_filter.mp hmem3 with ⟨hmem4, hpred⟩
  unfold contextualScored at hmem4
  rcases List.mem_map.mp hmem4 with ⟨f, hf, hfe⟩
  have hpred2 : (if 0 < requiredCaps.length then p.2.hasAllRequired
      else decide (0 < p.2.score)) = true := hpred
  refine ⟨f, hf, ?_, ?_, ?_⟩
  · rw [← hfe]
    simp [renderContextual]
  · intro hne cap hcap
    have hlen : 0 < requiredCaps.length := List.length_pos.mpr hne
    rw [if_pos hlen] at hpred2
    have hall : p.2.hasAllRequired
        = requiredCaps.all (fun cap => capTrue (mergedCaps f) cap) := by
      rw [← hfe]
    rw [hall] at hpred2
    exact List.all_eq_true.mp hpred2 cap hcap
  · intro hemp
    subst hemp
    rw [if_neg (by simp)] at hpred2
    have hs : p.2.score = ctxScore context f := by rw [← hfe]
    have hpos := of_decide_eq_true hpred2
    rwa [hs] at hpos

/-- C1 witness: the hard filter applied to a one-facility input requiring
`emergency_24_7`. -/
theorem c1_witness :
    ∃ f, f ∈ [c1Fac] ∧ rC1.name = f.name ∧
      ((["emergency_24_7"] : List String) ≠ [] →
        ∀ cap ∈ ["emergency_24_7"], capTrue (mergedCaps f) cap = true) ∧
      ((["emergency_24_7"] : List String) = [] →
        0 < ctxScore ClinicalContext.general f) :=
  c1_required_cap_hard_filter [c1Fac] ClinicalContext.general 3 ["emergency_24_7"] rC1
    (by decide)

/-- C4: the triage level of the contextual recommendation at index `i`
follows the documented rule: monitor when the facility has a high-severity
anomaly; otherwise stable at index 0; otherwise stable exactly when the
score reaches `ceil(0.6 * profile size)`, else critical. -/
theorem c4_contextual_triage (facilities : List Facility) (context : ClinicalContext)
    (limit : Nat) (requiredCaps : List String) (i : Nat) (item : ContextScored)
    (h : (contextualRanked facilities context limit requiredCaps).get? i = some item) :
    ((deriveContextualRecommendations facilities context limit requiredCaps).get? i).map
      FacilityRecommendation.triageLevel =
    some (if hasHighAnomaly item.facility then TriageLevel.monitor
      else if i = 0 then TriageLevel.stable
      else if ctxThreshold (CONTEXT_PROFILES context).relevantCaps ≤ (item.score : ℤ)
        then TriageLevel.stable else TriageLevel.critical) := by
  unfold deriveContextualRecommendations
  rw [List.get?_map, List.get?_enum, h]
  simp only [Option.map_some']
  congr 1
  cases ha : hasHighAnomaly item.facility with
  | true => simp [renderContextual, ha]
  | false =>
    by_cases hi : i = 0
    · subst hi
      simp [renderContextual, ha]
    · have hib : (i == 0) = false := by simpa using hi
      simp [renderContextual, ha, hib, hi]

/-- C4 witness: the triage rule at index 0 for a facility carrying a
high-severity anomaly yields monitor. -/
theorem c4_witness :
    ((deriveContextualRecommendations [c4Fac] ClinicalContext.general 3 []).get? 0).map
      FacilityRecommendation.triageLevel = some TriageLevel.monitor := by
  have h := c4_contextual_triage [c4Fac] ClinicalContext.general 3 [] 0
    ⟨c4Fac, 1, mergedCaps c4Fac, true⟩ (by decide)
  simpa [(by decide : hasHighAnomaly c4Fac = true)] using h

/-! Lemmas about the anomaly grouping map of `deriveActionPlan`. -/

theorem setEntry_ne_nil {m : List (String × α)} {k : String} {v : α} :
    setEntry m k v ≠ [] := by
  cases m with
  | nil => simp [setEntry]
  | cons q rest =>
    obtain ⟨k1, w1⟩ := q
    simp only [setEntry]
    split <;> simp

theorem setEntry_key_mem {m : List (String × α)} {k : String} {v : α} {p : String × α}
    (h : p ∈ setEntry m k v) : p.1 = k ∨ ∃ w, (p.1, w) ∈ m := by
  induction m with
  | nil =>
    simp only [setEntry, List.mem_singleton] at h
    subst h
    exact Or.inl rfl
  | cons q rest ih =>
    obtain ⟨k1, w1⟩ := q
    simp only [setEntry] at h
    split at h
    · rename_i heq
      rcases List.mem_cons.mp h with rfl | hrest
      · exact Or.inl heq
      · exact Or.inr ⟨p.2, List.mem_cons.mpr (Or.inr hrest)⟩
    · rcases List.mem_cons.mp h with rfl | hrest
      · exact Or.inr ⟨w1, List.mem_cons.mpr (Or.inl rfl)⟩
      · rcases ih hrest with h1 | ⟨w, hw⟩
        · exact Or.inl h1
        · exact Or.inr ⟨w, List.mem_cons.mpr (Or.inr hw)⟩

theorem anomalyStep_none (m : List (String × List Anomaly)) {f : Facility}
    (hk : regionKey f = none) : anomalyStep m f = m := by
  unfold anomalyStep
  rw [hk]

theorem anomalyStep_some {m : List (String × List Anomaly)} {f : Facility}
    {region : String} (hk : regionKey f = some region) :
    anomalyStep m f = if f.anomalies.isEmpty then m
      else setEntry m region (((lookupEntry m region).getD []) ++ f.anomalies) := by
  unfold anomalyStep
  rw [hk]

theorem anomalyStep_eq_nil_iff {m : List (String × List Anomaly)} {f : Facility} :
    anomalyStep m f = [] ↔ m = [] ∧ (regionKey f = none ∨ f.anomalies = []) := by
  unfold anomalyStep
  cases hk : regionKey f with
  | none => simp
  | some region =>
    cases he : f.anomalies.isEmpty with
    | true =>
      have hnil : f.anomalies = [] := List.isEmpty_iff.mp he
      simp [he, hnil]
    | false =>
      have hne : f.anomalies ≠ [] := by
        intro h0
        rw [h0] at he
        exact absurd he (by simp)
      simp [he, hne, setEntry_ne_nil]

theorem foldl_anomalyStep_nil (facilities : List Facility) :
    ∀ m, facilities.foldl anomalyStep m = [] ↔
      (m = [] ∧ ∀ f ∈ facilities, regionKey f = none ∨ f.anomalies = []) := by
  induction facilities with
  | nil => intro m; simp
  | cons g gs ih =>
    intro m
    rw [List.foldl_cons, ih, anomalyStep_eq_nil_iff]
    constructor
    · rintro ⟨⟨hm, hg⟩, hgs⟩
      refine ⟨hm, ?_⟩
      intro f hf
      rcases List.mem_cons.mp hf with rfl | hf2
      · exact hg
      · exact hgs f hf2
    · rintro ⟨hm, hall⟩
      exact ⟨⟨hm, hall g (List.mem_cons_self g gs)⟩,
        fun f hf => hall f (List.mem_cons.mpr (Or.inr hf))⟩

theorem regionToAnomalies_eq_nil_iff (facilities : List Facility) :
    regionToAnomalies facilities = [] ↔
      ∀ f ∈ facilities, regionKey f = none ∨ f.anomalies = [] := by
  unfold regionToAnomalies
  rw [foldl_anomalyStep_nil]
  simp

theorem foldl_anomalyStep_keys (facilities : List Facility) :
    ∀ (m : List (String × List Anomaly)) (p : String × List Anomaly),
      p ∈ facilities.foldl anomalyStep m →
      (∃ w, (p.1, w) ∈ m) ∨ ∃ f ∈ facilities, regionKey f = some p.1 := by
  induction facilities with
  | nil =>
    intro m p hp
    exact Or.inl ⟨p.2, hp⟩
  | cons g gs ih =>
    intro m p hp
    rw [List.foldl_cons] at hp
    rcases ih (anomalyStep m g) p hp with ⟨w, hw⟩ | ⟨f, hf, hrk⟩
    · cases hk : regionKey g with
      | none =>
        rw [anomalyStep_none m hk] at hw
        exact Or.inl ⟨w, hw⟩
      | some region =>
        rw [anomalyStep_some hk] at hw
        by_cases he : g.anomalies.isEmpty = true
        · rw [if_pos he] at hw
          exact Or.inl ⟨w, hw⟩
        · rw [if_neg he] at hw
          rcases setEntry_key_mem hw with h1 | ⟨w2, hw2⟩
          · refine Or.inr ⟨g, List.mem_cons_self g gs, ?_⟩
            rw [hk, h1]
          · exact Or.inl ⟨w2, hw2⟩
    · exact Or.inr ⟨f, List.mem_cons.mpr (Or.inr hf), hrk⟩

theorem regionToAnomalies_keys {facilities : List Facility} {p : String × List Anomaly}
    (hp : p ∈ regionToAnomalies facilities) :
    ∃ f ∈ facilities, regionKey f = some p.1 := by
  rcases foldl_anomalyStep_keys facilities [] p hp with ⟨w, hw⟩ | h
  · exact absurd hw (List.not_mem_nil _)
  · exact h

theorem deriveActionPlan_eq_build {facilities : List Facility} {sel : String}
    {anomalies : List Anomaly} {rest : List (String × List Anomaly)}
    (e : sortDescBy (fun q => q.2.length) (regionToAnomalies facilities)
      = (sel, anomalies) :: rest) :
    deriveActionPlan facilities = buildActionPlan facilities sel anomalies := by
  unfold deriveActionPlan
  rw [e]

theorem buildActionPlan_region (facilities : List Facility) (sel : String)
    (anomalies : List Anomaly) :
    (buildActionPlan facilities sel anomalies).region = sel := rfl

theorem buildActionPlan_candidate (facilities : List Facility) (sel : String)
    (anomalies : List Anomaly) :
    (buildActionPlan facilities sel anomalies).candidate
      = ((facilities.find? (fun facility => facility.region == some sel)).map
          Facility.name).getD "Regional facility" := rfl

theorem buildActionPlan_intervention_ne (facilities : List Facility) (sel : String)
    (anomalies : List Anomaly) :
    (buildActionPlan facilities sel anomalies).intervention
      ≠ "Maintain current standards" := by
  simp only [buildActionPlan]
  split
  · decide
  · split
    · decide
    · split
      · decide
      · decide

/-- The plan equals the sentinel exactly when the grouping map is empty:
in the non-empty branch the intervention field is one of four strings, all
different from the sentinel's "Maintain current standards". -/
theorem deriveActionPlan_sentinel_iff (facilities : List Facility) :
    deriveActionPlan facilities = noAnomaliesPlan ↔
      regionToAnomalies facilities = [] := by
  constructor
  · intro h
    by_contra hne
    cases e : sortDescBy (fun q => q.2.length) (regionToAnomalies facilities) with
    | nil => exact hne (sortDescBy_eq_nil_iff.mp e)
    | cons top rest =>
      obtain ⟨topRegion, topAnomalies⟩ := top
      rw [deriveActionPlan_eq_build e] at h
      refine buildActionPlan_intervention_ne facilities topRegion topAnomalies ?_
      rw [h]
      rfl
  · intro h
    unfold deriveActionPlan
    rw [h]
    simp [sortDescBy]

/-- C5: `deriveActionPlan` returns the sentinel all-clear plan if and only
if no facility with a non-empty trimmed region has a non-empty anomaly
list; the empty input gives the sentinel; in every other case the returned
region is the trimmed region string of some input facility. -/
theorem c5_sentinel (facilities : List Facility) :
    (deriveActionPlan facilities = noAnomaliesPlan ↔
      ∀ f ∈ facilities, regionKey f = none ∨ f.anomalies = []) ∧
    deriveActionPlan [] = noAnomaliesPlan ∧
    (deriveActionPlan facilities ≠ noAnomaliesPlan →
      ∃ f ∈ facilities, regionKey f = some (deriveActionPlan facilities).region) := by
  refine ⟨?_, by decide, ?_⟩
  · rw [deriveActionPlan_sentinel_iff]
    exact regionToAnomalies_eq_nil_iff facilities
  · intro hne
    have hmapne : regionToAnomalies facilities ≠ [] := by
      intro h0
      exact hne ((deriveActionPlan_sentinel_iff facilities).mpr h0)
    cases e : sortDescBy (fun q => q.2.length) (regionToAnomalies facilities) with
    | nil => exact absurd (sortDescBy_eq_nil_iff.mp e) hmapne
    | cons top rest =>
      obtain ⟨topRegion, topAnomalies⟩ := top
      have hreg : (deriveActionPlan facilities).region = topRegion := by
        rw [deriveActionPlan_eq_build e, buildActionPlan_region]
      have hmem : (topRegion, topAnomalies) ∈ regionToAnomalies facilities := by
        have hm : (topRegion, topAnomalies)
            ∈ sortDescBy (fun q => q.2.length) (regionToAnomalies facilities) := by
          rw [e]
          exact List.mem_cons_self _ _
        exact mem_sortDescBy.mp hm
      rcases regionToAnomalies_keys hmem with ⟨f, hf, hrk⟩
      refine ⟨f, hf, ?_⟩
      rw [hreg]
      exact hrk

/-- C5 witness: the non-sentinel case applied to a one-facility input with
a region and an anomaly. -/
theorem c5_witness :
    ∃ f ∈ [c5Fac], regionKey f = some (deriveActionPlan [c5Fac]).region :=
  (c5_sentinel [c5Fac]).2.2 (by decide)

/-- C6, counterexample: with a single facility whose raw region is
" North " (trimming to the key "North") and one anomaly, the plan's
candidate is the fallback string "Regional facility", not the name of any
facility of that region. -/
theorem c6_counterexample :
    (deriveActionPlan [c6Fac]).candidate = "Regional facility" ∧
    ∀ f ∈ [c6Fac], f.name ≠ (deriveActionPlan [c6Fac]).candidate := by
  decide

/-- C6 (amended): when some region has anomalies, the selected region
heads the stable descending sort of the grouping map (so it carries a
maximal anomaly count), and the candidate is the name of the first
facility in input order whose raw (untrimmed) region string equals the
selected trimmed key — or the fallback "Regional facility" when no
facility's raw region equals the key exactly. -/
theorem c6_candidate (facilities : List Facility)
    (h : regionToAnomalies facilities ≠ []) :
    ∃ sel anomalies rest,
      sortDescBy (fun q => q.2.length) (regionToAnomalies facilities)
        = (sel, anomalies) :: rest ∧
      (deriveActionPlan facilities).region = sel ∧
      (sel, anomalies) ∈ regionToAnomalies facilities ∧
      (∀ q ∈ regionToAnomalies facilities, q.2.length ≤ anomalies.length) ∧
      (∀ f, facilities.find? (fun facility => facility.region == some sel) = some f →
        (deriveActionPlan facilities).candidate = f.name) ∧
      (facilities.find? (fun facility => facility.region == some sel) = none →
        (deriveActionPlan facilities).candidate = "Regional facility") := by
  cases e : sortDescBy (fun q => q.2.length) (regionToAnomalies facilities) with
  | nil => exact absurd (sortDescBy_eq_nil_iff.mp e) h
  | cons top rest =>
    obtain ⟨sel, anomalies⟩ := top
    refine ⟨sel, anomalies, rest, rfl, ?_, ?_, ?_, ?_, ?_⟩
    · rw [deriveActionPlan_eq_build e, buildActionPlan_region]
    · have hm : (sel, anomalies)
          ∈ sortDescBy (fun q => q.2.length) (regionToAnomalies facilities) := by
        rw [e]
        exact List.mem_cons_self _ _
      exact mem_sortDescBy.mp hm
    · intro q hq
      exact sortDescBy_head_max e q hq
    · intro f hf
      rw [deriveActionPlan_eq_build e, buildActionPlan_candidate, hf]
      rfl
    · intro hnone
      rw [deriveActionPlan_eq_build e, buildActionPlan_candidate, hnone]
      rfl

/-- C6 witness: the amended candidate rule applied to a facility whose raw
region equals its trimmed key. -/
theorem c6_witness :
    ∃ sel anomalies rest,
      sortDescBy (fun q => q.2.length) (regionToAnomalies [c6W])
        = (sel, anomalies) :: rest ∧
      (deriveActionPlan [c6W]).region = sel ∧
      (sel, anomalies) ∈ regionToAnomalies [c6W] ∧
      (∀ q ∈ regionToAnomalies [c6W], q.2.length ≤ anomalies.length) ∧
      (∀ f, List.find? (fun facility => facility.region == some sel) [c6W] = some f →
        (deriveActionPlan [c6W]).candidate = f.name) ∧
      (List.find? (fun facility => facility.region == some sel) [c6W] = none →
        (deriveActionPlan [c6W]).candidate = "Regional facility") :=
  c6_candidate [c6W] (by decide)

/-- Shape lemma for the desert-zone radius clamp. -/
theorem radius_clamp_bounds (x : ℚ) :
    15000 ≤ max 15000 (min 80000 x) ∧ max 15000 (min 80000 x) ≤ 80000 :=
  ⟨le_max_left _ _, max_le (by norm_num) (min_le_left _ _)⟩

/-- Bound on the length of a region's gaps list. -/
theorem regionGaps_length_le (stats : RegionStats) :
    (regionGaps stats).length ≤ 3 := by
  unfold regionGaps
  split <;> split <;> split <;> simp

/-- C7: every emitted desert zone has a non-empty gaps list, its radius is
the clamped spread formula and so lies in [15000, 80000], and its severity
is critical at 3 gaps, high at 2 and moderate at 1; each zone comes from a
region entry with at least one mappable coordinate. -/
theorem c7_desert_zone_bounds (facilities : List Facility) (z : DesertZoneData)
    (hz : z ∈ deriveDesertZones facilities) :
    z.gaps ≠ [] ∧
    (15000 ≤ z.radius ∧ z.radius ≤ 80000) ∧
    z.severity = (if z.gaps.length = 3 then "critical"
      else if z.gaps.length = 2 then "high" else "moderate") ∧
    ∃ region stats, (region, stats) ∈ desertRegionMap facilities ∧ stats.lats ≠ [] ∧
      z.region = region ∧ z.gaps = regionGaps stats ∧
      z.radius = max 15000 (min 80000
        (max (listMax stats.lats - listMin stats.lats)
          (listMax stats.lngs - listMin stats.lngs) * 111000 * (6 / 10))) := by
  unfold deriveDesertZones at hz
  rcases List.mem_filterMap.mp hz with ⟨p, hp, hzone⟩
  obtain ⟨region, stats⟩ := p
  simp only [zoneOfRegion] at hzone
  cases hcond : ((regionGaps stats).isEmpty || stats.lats.isEmpty) with
  | true =>
    rw [hcond] at hzone
    simp at hzone
  | false =>
    rw [hcond] at hzone
    simp only [Bool.false_eq_true, if_false, Option.some.injEq] at hzone
    rcases Bool.or_eq_false_iff.mp hcond with ⟨hg, hl⟩
    have hgaps : regionGaps stats ≠ [] := by
      intro h0
      rw [h0] at hg
      exact absurd hg (by simp)
    have hlats : stats.lats ≠ [] := by
      intro h0
      rw [h0] at hl
      exact absurd hl (by simp)
    subst hzone
    refine ⟨hgaps, ?_, ?_, region, stats, hp, hlats, rfl, rfl, rfl⟩
    · exact radius_clamp_bounds _
    · have h1 : 1 ≤ (regionGaps stats).length := List.length_pos.mpr hgaps
      have h3 := regionGaps_length_le stats
      have hcases : (regionGaps stats).length = 1 ∨ (regionGaps stats).length = 2
          ∨ (regionGaps stats).length = 3 := by omega
      rcases hcases with hc | hc | hc <;> simp [hc]

/-- C7 witness: the bounds applied to the zone emitted for a single
capability-less mappable facility. -/
theorem c7_witness : 15000 ≤ c7Zone.radius ∧ c7Zone.radius ≤ 80000 :=
  (c7_desert_zone_bounds [c7Fac] c7Zone (by
    have hmap : desertRegionMap [c7Fac]
        = [("West", ⟨[(0:ℚ)], [(0:ℚ)], 0, 0, 0, 1⟩)] := by decide
    simp [deriveDesertZones, hmap, zoneOfRegion, regionGaps, listMax, listMin, c7Zone,
      show min (80000:ℚ) 0 = 0 from min_eq_right (by norm_num),
      show max (15000:ℚ) 0 = 15000 from max_eq_left (by norm_num)])).2.1

end VC
